import Mathlib

/-!
Shallow embedding of the IR capture/decode/transmit core of the
raspberry-mcp repository (files `mcp_server/services/ir_listener_manager.py`
and `mcp_server/utils/ir_event_controls.py`), together with theorems
settling the specification claims about it.

A captured or replayed pulse is a pair of a level label and a duration in
microseconds, mirroring the `(state, duration_us)` tuples the Python code
stores in `timing_data` and consumes in `_send_raw_timing`.
-/

/-- A pulse: level label (such as "low" / "high") and duration in µs. -/
abbrev Pulse := String × Nat

/-- One primitive transmitter action, mirroring `_send_mark` (set PWM duty,
sleep), `_send_space` (set PWM 0, sleep) and a bare `set_PWM_dutycycle(pin, 0)`
call with no sleep. -/
inductive TxAct where
  | mark (duty dur : Nat)
  | space (dur : Nat)
  | pwmOff
  deriving DecidableEq

/-- PWM duty cycle on the output pin after running a trace (0 = carrier off).
Initial duty is 0: `ir_send` forces PWM off before transmitting. -/
def lastDuty (tr : List TxAct) : Nat :=
  tr.foldl
    (fun _ a =>
      match a with
      | TxAct.mark duty _ => duty
      | TxAct.space _ => 0
      | TxAct.pwmOff => 0)
    0

/-- Whitespace accepted by Python `int(str, 16)` around the literal. -/
def isPySpace (c : Char) : Bool :=
  c = ' ' ∨ c = '\t' ∨ c = '\n' ∨ c = '\r' ∨ c = Char.ofNat 11 ∨ c = Char.ofNat 12

/-- ASCII hexadecimal digit test. -/
def pyIsHexDigit (c : Char) : Bool :=
  (48 ≤ c.toNat ∧ c.toNat ≤ 57) ∨ (65 ≤ c.toNat ∧ c.toNat ≤ 70) ∨
    (97 ≤ c.toNat ∧ c.toNat ≤ 102)

/-- Value of an ASCII hexadecimal digit. -/
def pyHexVal (c : Char) : Nat :=
  if c.toNat ≤ 57 then c.toNat - 48
  else if c.toNat ≤ 70 then c.toNat - 55
  else c.toNat - 87

/-- Digits of a hexadecimal literal after the first digit; a single `_` is
allowed between digits (Python underscore grouping), never trailing or
doubled. -/
def pyHexDigitsGo : List Char → Nat → Option Nat
  | [], acc => some acc
  | '_' :: [], _ => none
  | '_' :: c :: cs, acc =>
    if pyIsHexDigit c then pyHexDigitsGo cs (acc * 16 + pyHexVal c) else none
  | c :: cs, acc =>
    if pyIsHexDigit c then pyHexDigitsGo cs (acc * 16 + pyHexVal c) else none

/-- A non-empty run of hexadecimal digits with underscore grouping. -/
def pyHexDigits : List Char → Option Nat
  | [] => none
  | c :: cs => if pyIsHexDigit c then pyHexDigitsGo cs (pyHexVal c) else none

/-- Body of a hexadecimal literal: optional `0x`/`0X` prefix (an underscore
may follow the prefix), then digits. -/
def pyHexBody : List Char → Option Nat
  | '0' :: 'x' :: '_' :: cs => pyHexDigits cs
  | '0' :: 'x' :: cs => pyHexDigits cs
  | '0' :: 'X' :: '_' :: cs => pyHexDigits cs
  | '0' :: 'X' :: cs => pyHexDigits cs
  | cs => pyHexDigits cs

/-- Python `int(s, 16)`: strip whitespace, optional sign, optional base
prefix, digits. Returns `none` where Python raises `ValueError` (which
`_send_ir_protocol` catches and turns into `False`). -/
def pyIntHex (s : String) : Option Int :=
  let cs := ((s.toList.dropWhile isPySpace).reverse.dropWhile isPySpace).reverse
  match cs with
  | '+' :: rest => (pyHexBody rest).map Int.ofNat
  | '-' :: rest => (pyHexBody rest).map (fun n => -(n : Int))
  | rest => (pyHexBody rest).map Int.ofNat

/-- Python `(code >> k) & 1` on an arbitrary-precision int (arithmetic
shift, i.e. floor division). -/
def pyBit (code : Int) (k : Nat) : Int :=
  (Int.fdiv code (2 ^ k)).emod 2

/-- Trace of `_send_nec_command`: 9000/4500 header, then 32 bits sent
MSB-first from the code word (mark 560, space 1690 for 1 / 560 for 0),
then a 560 µs stop mark. -/
def necTrace (duty : Nat) (code : Int) : List TxAct :=
  TxAct.mark duty 9000 :: TxAct.space 4500 ::
    ((List.range 32).flatMap fun i =>
      [TxAct.mark duty 560,
       TxAct.space (if pyBit code (31 - i) = 1 then 1690 else 560)])
    ++ [TxAct.mark duty 560]

/-- Trace of `_send_sony_command`: 2400 µs header mark, 1200 µs space, then
12 bits sent LSB-first (mark 600, space 1200 for 1 / 600 for 0). -/
def sonyTrace (duty : Nat) (code : Int) : List TxAct :=
  TxAct.mark duty 2400 :: TxAct.space 1200 ::
    ((List.range 12).flatMap fun i =>
      [TxAct.mark duty 600,
       TxAct.space (if pyBit code i = 1 then 1200 else 600)])

/-- Trace of `_send_test_burst`: NEC-like header, eight 560/1690 pulses,
then a final 560 µs mark. Note the burst ends with the carrier on. -/
def testBurstTrace (duty : Nat) : List TxAct :=
  TxAct.mark duty 9000 :: TxAct.space 4500 ::
    ((List.range 8).flatMap fun _ => [TxAct.mark duty 560, TxAct.space 1690])
    ++ [TxAct.mark duty 560]

/-- Trace of `_send_raw_timing`: "low"/"mark" drive the carrier, "high" /
"space" / anything else is a space; the carrier is forced off at the end. -/
def rawTrace (duty : Nat) (timing : List Pulse) : List TxAct :=
  (timing.map fun p =>
    if p.1 = "low" ∨ p.1 = "mark" then TxAct.mark duty p.2 else TxAct.space p.2)
  ++ [TxAct.pwmOff]

/-- Python `str.lower()` on the ASCII protocol names the code compares
against ("nec", "sony", "generic"). -/
def asciiLower (c : Char) : Char :=
  if 65 ≤ c.toNat ∧ c.toNat ≤ 90 then Char.ofNat (c.toNat + 32) else c

/-- `protocol.lower()` as used by `_send_ir_protocol` and `ir_send`. -/
def pyLower (s : String) : String :=
  String.mk (s.toList.map asciiLower)

/-- Python truthiness of the `raw_timing_data` argument: `None` and the
empty list are falsy. -/
def rawTruthy (raw : Option (List Pulse)) : Bool :=
  match raw with
  | some (_ :: _) => true
  | _ => false

/-- `_send_ir_protocol`: returns the success flag together with the emitted
transmitter trace. Generic with truthy raw timing replays it; otherwise the
hex code is parsed (`ValueError` gives `False`); "nec" / "sony" encode;
any other protocol replays raw timing when truthy, else sends the test
burst — and still returns `True`. -/
def sendIrProtocol (duty : Nat) (protocol hexCode : String)
    (raw : Option (List Pulse)) : Bool × List TxAct :=
  if pyLower protocol = "generic" ∧ rawTruthy raw then
    (true, rawTrace duty (raw.getD []))
  else
    match pyIntHex hexCode with
    | none => (false, [])
    | some code =>
      if pyLower protocol = "nec" then (true, necTrace duty code)
      else if pyLower protocol = "sony" then (true, sonyTrace duty code)
      else if rawTruthy raw then (true, rawTrace duty (raw.getD []))
      else (true, testBurstTrace duty)

/-- `ir_send`: requires pigpio and a running daemon, forces PWM off, then
repeats `_send_ir_protocol` five times (each attempt preceded by a PWM-off);
succeeds iff at least one attempt succeeded (the attempts are
deterministic, so iff the single attempt succeeds). -/
def irSend (avail connected : Bool) (protocol hexCode : String)
    (raw : Option (List Pulse)) (powerBoost : Bool) : Bool × List TxAct :=
  if ¬ avail then (false, [])
  else if ¬ connected then (false, [])
  else
    let duty := if powerBoost then 255 else 200
    let attempt := sendIrProtocol duty protocol hexCode raw
    let once := TxAct.pwmOff :: attempt.2
    (attempt.1, TxAct.pwmOff :: (once ++ once ++ once ++ once ++ once))

/-- The pulse sequence a receiver facing the transmitter records: a mark is
seen as a carrier-on ("low" at the active-low receiver output) interval, a
space as "high"; a bare PWM-off has no duration and yields no pulse. -/
def traceToPulses (tr : List TxAct) : List Pulse :=
  tr.flatMap fun a =>
    match a with
    | TxAct.mark _ dur => [(("low" : String), dur)]
    | TxAct.space dur => [(("high" : String), dur)]
    | TxAct.pwmOff => []

/-- Analysis result of `_analyze_signal` (one dict shape per protocol
branch of `ir_listener_manager.py`; there are no Sony or REPEAT shapes in
the source). The `raw` shape is the recovery-path analysis built in
`_finish_current_signal` when processing raises. -/
inductive Analysis where
  | empty
  | noise
  | nec (address command : Nat) (code : String) (bitsDecoded : Nat)
      (verified : Bool) (rawTimingData : List Pulse)
  | generic (code : String) (pulseCount totalDurationUs : Nat)
      (normalizedTiming : List Nat) (fingerprint : String)
      (signalNumber : Nat) (rawTimingData : List Pulse)
  | raw (code : String)
  deriving DecidableEq

/-- Whether an analysis is the Generic fallback shape. -/
def Analysis.isGeneric : Analysis → Bool
  | Analysis.generic _ _ _ _ _ _ _ => true
  | _ => false

/-- Fingerprint field of an analysis, when it has one. -/
def Analysis.fingerprintOf : Analysis → Option String
  | Analysis.generic _ _ _ _ f _ _ => some f
  | _ => none

/-- Code field of an analysis, when the variant carries one. -/
def Analysis.codeOf : Analysis → Option String
  | Analysis.nec _ _ c _ _ _ => some c
  | Analysis.generic c _ _ _ _ _ _ => some c
  | Analysis.raw c => some c
  | _ => none

/-- `sum(duration for _, duration in timing_data)`. -/
def totalDurationUs (td : List Pulse) : Nat :=
  (td.map fun p => p.2).sum

/-- Uppercase hexadecimal digit character. -/
def hexDigitChar (n : Nat) : Char :=
  if n < 10 then Char.ofNat (48 + n) else Char.ofNat (55 + n)

/-- Uppercase hexadecimal digit characters of `n` (empty for 0), with a
structural fuel argument (the fuel never runs out for `fuel = n`). -/
def natHexCharsGo : Nat → Nat → List Char
  | 0, _ => []
  | _ + 1, 0 => []
  | fuel + 1, n => natHexCharsGo fuel (n / 16) ++ [hexDigitChar (n % 16)]

/-- Uppercase hexadecimal digit characters of `n` (empty for 0). -/
def natHexChars (n : Nat) : List Char :=
  natHexCharsGo n n

/-- Python `format(n, '0wX')`: uppercase hexadecimal, zero-padded to at
least `w` characters. -/
def hexPad (w n : Nat) : String :=
  let ds := if n = 0 then ['0'] else natHexChars n
  String.mk (List.replicate (w - ds.length) '0' ++ ds)

/-- Bit-pair scan of `_decode_nec`: starting at pulse index 2, each loop
iteration reads a (low, high) pulse pair; a low of 300–800 µs with a high
of 300–800 µs appends bit 0, with a high of 1200–2200 µs appends bit 1,
anything else stops the scan. The fuel is the Python loop iteration count. -/
def necBitsGo : List Pulse → Nat → List Nat
  | (_, low) :: (_, high) :: rest, fuel + 1 =>
    if 300 ≤ low ∧ low ≤ 800 then
      if 300 ≤ high ∧ high ≤ 800 then 0 :: necBitsGo rest fuel
      else if 1200 ≤ high ∧ high ≤ 2200 then 1 :: necBitsGo rest fuel
      else []
    else []
  | _, _ => []

/-- Data bits extracted by `_decode_nec`: the loop
`for i in range(2, min(66, len(timing_data) - 1), 2)` performs
`(min(66, len - 1) - 1) / 2` iterations over the pulses after the AGC
header. -/
def necDataBits (td : List Pulse) : List Nat :=
  necBitsGo (td.drop 2) ((min 66 (td.length - 1) - 1) / 2)

/-- `address |= (1 << i)` accumulation: byte assembled LSB-first from
8 bits of the bit list starting at `off` (missing bits read as 0). -/
def bitsToByte (bits : List Nat) (off : Nat) : Nat :=
  (List.range 8).foldl
    (fun acc i => if bits.getD (off + i) 0 = 1 then acc + 2 ^ i else acc) 0

/-- `_decode_nec`: needs at least 34 pulses and at least 16 decoded bits;
address is bits 0–7, command is bits 8–15, `verified` is hard-coded
`True`, and there is no complement/checksum check and no repeat-frame
handling. -/
def decodeNec (td : List Pulse) : Option Analysis :=
  if td.length < 34 then none
  else
    let bits := necDataBits td
    if 16 ≤ bits.length then
      let address := bitsToByte bits 0
      let command := bitsToByte bits 8
      some (Analysis.nec address command
        ("0x" ++ hexPad 2 address ++ hexPad 2 command ++ "0000")
        bits.length true td)
    else none

/-- `round(duration / 25) * 25`. For integer `duration` the quotient is
never exactly half-way, so round-half-to-even is plain nearest rounding,
`(2 * d + 25) / 50`. -/
def bucket25 (d : Nat) : Nat :=
  (2 * d + 25) / 50 * 25

/-- `round(duration / 50) * 50` with Python round-half-to-even (exact ties
happen at `d % 50 = 25`). Used by `_store_recent_signal`. -/
def bucket50 (d : Nat) : Nat :=
  (if d % 50 < 25 then d / 50
   else if 25 < d % 50 then d / 50 + 1
   else if d / 50 % 2 = 0 then d / 50 else d / 50 + 1) * 50

/-- Normalized durations of the Generic fallback: first 24 pulses bucketed
to 25 µs, with the first 12 pulses appended twice (double weighting). -/
def genericNormalized (td : List Pulse) : List Nat :=
  (td.take 24).enum.flatMap fun ip =>
    let nd := bucket25 ip.2.2
    if ip.1 < 12 then [nd, nd] else [nd]

/-- State sequence of the Generic fallback: 1 for "high", else 0, over the
first 24 pulses. -/
def genericStateSeq (td : List Pulse) : List Nat :=
  (td.take 24).map fun p => if p.1 = "high" then 1 else 0

/-- CPython `hash` of a non-negative int: reduction modulo `2^61 - 1`. -/
def pyIntHash (n : Nat) : Nat :=
  n % (2 ^ 61 - 1)

/-- 64-bit rotation `(x << 31) | (x >> 33)` used by CPython tuple hashing. -/
def xxRotate (x : Nat) : Nat :=
  Nat.lor (x * 2 ^ 31 % 2 ^ 64) (x / 2 ^ 33)

/-- CPython `hash(tuple_of_nonneg_ints)` (the xxHash-style `tuplehash` of
`tupleobject.c`), as an unsigned 64-bit value; `& 0xFFFF` below reads its
low 16 bits exactly as Python does. -/
def pyTupleHash (l : List Nat) : Nat :=
  let acc := l.foldl
    (fun acc n =>
      xxRotate ((acc + pyIntHash n * 14029467366897019727) % 2 ^ 64)
        * 11400714785074694791 % 2 ^ 64)
    2870177450012600261
  let acc := (acc + Nat.xor l.length (Nat.xor 2870177450012600261 3527539)) % 2 ^ 64
  if acc = 2 ^ 64 - 1 then 1546275796 else acc

/-- `timing_hash = hash(tuple(normalized)) & 0xFFFF`: a function of the
pulse sequence alone. -/
def timingHashOf (td : List Pulse) : Nat :=
  pyTupleHash (genericNormalized td) % 65536

/-- `state_hash = hash(tuple(state_sequence)) & 0xFFFF`. -/
def stateHashOf (td : List Pulse) : Nat :=
  pyTupleHash (genericStateSeq td) % 65536

/-- `length_hash = len(timing_data) & 0xFF`. -/
def lengthHashOf (td : List Pulse) : Nat :=
  td.length % 256

/-- `duration_hash = (total_duration // 1000) & 0xFF`. -/
def durationHashOf (td : List Pulse) : Nat :=
  totalDurationUs td / 1000 % 256

/-- The part of the Generic fingerprint string that depends only on the
pulse sequence: `T{timing}S{state}L{length}D{duration}`. -/
def fingerprintStem (td : List Pulse) : String :=
  "T" ++ hexPad 4 (timingHashOf td) ++ "S" ++ hexPad 4 (stateHashOf td)
    ++ "L" ++ hexPad 2 (lengthHashOf td) ++ "D" ++ hexPad 2 (durationHashOf td)

/-- `code_hash`: combines the timing/state/length/duration hashes with the
signal number and the capture-time microsecond hash, masked to 32 bits. -/
def genericCodeHash (td : List Pulse) (signalNumber timeUs : Nat) : Nat :=
  Nat.lor (timingHashOf td * 65536)
    (Nat.xor
      (Nat.xor
        (Nat.xor (Nat.xor (stateHashOf td) (lengthHashOf td * 256))
          (durationHashOf td))
        (signalNumber % 256 * 256))
      (timeUs % 65536))
  % 2 ^ 32

/-- The Generic fallback analysis built by `_analyze_signal`: code string,
pulse count, total duration, first 12 normalized values, fingerprint
(which appends `#signal_number@time_hash` to the sequence-only stem), and
the raw timing data retained for transmission. -/
def genericAnalysis (td : List Pulse) (signalNumber timeUs : Nat) : Analysis :=
  Analysis.generic ("0x" ++ hexPad 8 (genericCodeHash td signalNumber timeUs))
    td.length (totalDurationUs td) ((genericNormalized td).take 12)
    (fingerprintStem td ++ "#" ++ Nat.repr signalNumber ++ "@"
      ++ hexPad 4 (timeUs % 65536))
    signalNumber td

/-- `_analyze_signal`: Empty for no pulses; Noise when the total duration
is under 1000 µs; NEC when there are at least 4 pulses, the first two
pulses look like a 9000/4500 AGC header (7000–12000 µs low then
3000–6000 µs high) and `_decode_nec` succeeds; otherwise the Generic
fallback. `timeUs` models `int(time.time() * 1000000)`. -/
def analyzeSignal (td : List Pulse) (signalNumber timeUs : Nat) : Analysis :=
  match td with
  | [] => Analysis.empty
  | first :: rest =>
    if totalDurationUs (first :: rest) < 1000 then Analysis.noise
    else
      let necAttempt :=
        if 4 ≤ (first :: rest).length then
          let firstLow := if first.1 = "low" then first.2 else 0
          let firstHigh :=
            match rest with
            | second :: _ => if second.1 = "high" then second.2 else 0
            | [] => 0
          if 7000 ≤ firstLow ∧ firstLow ≤ 12000
              ∧ 3000 ≤ firstHigh ∧ firstHigh ≤ 6000 then
            decodeNec (first :: rest)
          else none
        else none
      match necAttempt with
      | some r => r
      | none => genericAnalysis (first :: rest) signalNumber timeUs

/-- An entry of the Signal Store (`_ir_events`): capture timestamp (µs),
signal number, timing data, cached total duration and pulse count, and the
analysis. -/
structure Event where
  timestampUs : Nat
  signalNumber : Nat
  timingData : List Pulse
  totalDurationUs : Nat
  pulseCount : Nat
  analysis : Analysis
  deriving DecidableEq

/-- `_max_events = 1000`, the configured Signal Store bound. -/
def MAX_EVENTS : Nat := 1000

/-- Normal-path event insertion of `_finish_current_signal`: append, then
if the store now exceeds `maxEvents`, drop the oldest `maxEvents // 10`
events in one batch. -/
def insertEvent (maxEvents : Nat) (events : List Event) (e : Event) : List Event :=
  let es := events ++ [e]
  if maxEvents < es.length then es.drop (maxEvents / 10) else es

/-- Recovery-path event insertion of `_finish_current_signal` (the `except`
branch): the raw event is appended with no bounds check and no eviction. -/
def insertEventRaw (events : List Event) (e : Event) : List Event :=
  events ++ [e]

/-- An entry of `_recent_signals` stored by `_store_recent_signal`. -/
structure RecentSig where
  normalized : List Nat
  analysis : Analysis
  timestampUs : Nat
  originalPulseCount : Nat
  deriving DecidableEq

/-- `_store_recent_signal`: store the 50 µs-bucketed pattern of the first
20 pulses, keep only the last 5 entries once more than 10 accumulate, and
drop entries older than 30 seconds. -/
def storeRecentSignal (recents : List RecentSig) (td : List Pulse)
    (analysis : Analysis) (timeUs : Nat) : List RecentSig :=
  let entry : RecentSig :=
    { normalized := (td.take 20).map fun p => bucket50 p.2
      analysis := analysis
      timestampUs := timeUs
      originalPulseCount := td.length }
  let rs := recents ++ [entry]
  let rs := if 10 < rs.length then rs.drop (rs.length - 5) else rs
  rs.filter fun r => timeUs - r.timestampUs < 30000000

/-- Mutable state of `IRListenerManager` (the fields the capture path
touches; the pigpio handle is reduced to its connection state). -/
structure ListenerState where
  irEvents : List Event
  isListening : Bool
  currentSignal : List Pulse
  lastTick : Option Nat
  lastLevel : Option Nat
  lastSignalTimeUs : Nat
  signalCounter : Nat
  recentSignals : List RecentSig
  completionTimerActive : Bool
  piConnected : Option Bool
  callbackActive : Bool
  deriving DecidableEq

/-- `_finish_current_signal` (normal path, signal matching disabled as in
the source): number the signal, analyze it, remember it in
`_recent_signals`, append the event with batch eviction, and clear the
in-progress buffer. A no-op when no signal is buffered. -/
def finishCurrentSignal (st : ListenerState) (timeUs : Nat) : ListenerState :=
  match st.currentSignal with
  | [] => st
  | first :: rest =>
    let td := first :: rest
    let counter := st.signalCounter + 1
    let analysis := analyzeSignal td counter timeUs
    let e : Event :=
      { timestampUs := timeUs
        signalNumber := counter
        timingData := td
        totalDurationUs := totalDurationUs td
        pulseCount := td.length
        analysis := analysis }
    { st with
        signalCounter := counter
        recentSignals := storeRecentSignal st.recentSignals td analysis timeUs
        irEvents := insertEvent MAX_EVENTS st.irEvents e
        currentSignal := [] }

/-- `start_listening`: fails when pigpio is absent; succeeds with no side
effects when already listening; otherwise connects (a dead daemon leaves a
disconnected handle and fails), clears events and counters, and arms the
callback. -/
def startListening (avail connected : Bool) (st : ListenerState) :
    (Bool × String) × ListenerState :=
  if ¬ avail then
    ((false, "pigpio not available - IR listening requires pigpio support"), st)
  else if st.isListening then
    ((true, "IR listener is already running."), st)
  else if ¬ connected then
    ((false, "pigpiod not running - start with: sudo systemctl start pigpiod"),
      { st with piConnected := some false })
  else
    ((true, "IR listener started on GPIO27. Press remote buttons to capture signals."),
      { st with
          irEvents := []
          recentSignals := []
          currentSignal := []
          lastTick := none
          lastLevel := none
          lastSignalTimeUs := 0
          signalCounter := 0
          completionTimerActive := false
          piConnected := some true
          callbackActive := true
          isListening := true })

/-- `stop_listening`: succeeds with no side effects when not listening;
otherwise clears the listening flag, cancels the timer and callback,
disconnects, and resets the in-progress signal state (captured events are
kept). -/
def stopListening (st : ListenerState) : (Bool × String) × ListenerState :=
  if ¬ st.isListening then
    ((true, "IR listener is not running."), st)
  else
    ((true, "IR listener stopped successfully. Captured "
        ++ Nat.repr st.irEvents.length ++ " events."),
      { st with
          isListening := false
          completionTimerActive := false
          callbackActive := false
          piConnected := none
          currentSignal := []
          lastTick := none
          lastLevel := none
          lastSignalTimeUs := 0 })

/-- `clear_events`: empties the store and the recent-signal cache and
resets the signal counter. -/
def clearEvents (st : ListenerState) : ListenerState :=
  { st with irEvents := [], recentSignals := [], signalCounter := 0 }

/-- The fields of `get_listener_status` that are functions of the modelled
state. -/
structure ListenerStatus where
  isListening : Bool
  gpioPin : Nat
  totalEvents : Nat
  callbackActive : Bool
  completionTimerActive : Bool
  signalCounter : Nat
  recentSignalsCached : Nat
  currentSignalPulses : Nat
  signalTimeoutMs : Nat
  maxEventsLimit : Nat
  deriving DecidableEq

/-- `get_listener_status`. -/
def getListenerStatus (st : ListenerState) : ListenerStatus :=
  { isListening := st.isListening
    gpioPin := 27
    totalEvents := st.irEvents.length
    callbackActive := st.callbackActive
    completionTimerActive := st.completionTimerActive
    signalCounter := st.signalCounter
    recentSignalsCached := st.recentSignals.length
    currentSignalPulses := st.currentSignal.length
    signalTimeoutMs := 200
    maxEventsLimit := MAX_EVENTS }

/-- Bit `i` of a byte, LSB first, as 0/1. -/
def lsbBit (b i : Nat) : Nat :=
  b / 2 ^ i % 2

/-- The eight bits of a byte, LSB first. -/
def lsbBits (b : Nat) : List Nat :=
  (List.range 8).map fun i => lsbBit b i

/-- Pulse pairs of a list of NEC data bits: 560 µs mark, then a 1690 µs
space for 1 / 560 µs space for 0. -/
def necBitPulses (bits : List Nat) : List Pulse :=
  bits.flatMap fun b =>
    [(("low" : String), 560), (("high" : String), if b = 1 then 1690 else 560)]

/-- A standard (wire-format) NEC frame for address `a` and command `c`:
AGC header, then the bytes `a`, `~a`, `c`, `~c` each LSB-first, then the
stop mark. This is what a compliant remote emits. -/
def necStandardPulses (a c : Nat) : List Pulse :=
  (("low" : String), 9000) :: (("high" : String), 4500) ::
    necBitPulses (lsbBits a ++ lsbBits (255 - a) ++ lsbBits c ++ lsbBits (255 - c))
    ++ [(("low" : String), 560)]

/-- Re-encode a captured NEC `{address, command}` the way the repository
does: the stored code string is `0x{address:02X}{command:02X}0000`, so the
32-bit word handed to `_send_nec_command` is `address << 24 | command << 16`. -/
def necRetransmitCode (a c : Nat) : Int :=
  Int.ofNat (a * 2 ^ 24 + c * 2 ^ 16)

/-- Round trip of claim C2: encode `{address, command}` with the NEC
transmit encoder, capture the emitted waveform as a pulse sequence, run it
through the decoder pipeline, and report the decoded
(address, command, verified) triple, if the result is NEC at all. -/
def necRoundTrip (a c : Nat) : Option (Nat × Nat × Bool) :=
  match analyzeSignal (traceToPulses (necTrace 200 (necRetransmitCode a c))) 1 0 with
  | Analysis.nec address command _ _ verified _ => some (address, command, verified)
  | _ => none

/-- The bit values (0/1) that `_send_nec_command` puts on the wire, in
transmission order: bit `i` of the frame is bit `31 - i` of the code word. -/
def necSentBits (code : Int) : List Nat :=
  (List.range 32).map fun i => if pyBit code (31 - i) = 1 then 1 else 0

/-- The byte with the reversed bit order of `b`. -/
def rev8 (b : Nat) : Nat :=
  (List.range 8).foldl (fun acc i => acc + lsbBit b (7 - i) * 2 ^ i) 0

/-- A 25-pulse Sony SIRC waveform as seen by the receiver: 2400 µs header
mark, then 12 zero bits (600 µs space, 600 µs mark each), exactly the
shape claim C4 requires the pipeline to classify as Sony. -/
def sonySircPulses : List Pulse :=
  (("low" : String), 2400) ::
    (List.range 12).flatMap fun _ =>
      [(("high" : String), 600), (("low" : String), 600)]

/-- A 4-pulse frame whose first two pulses satisfy the NEC AGC header
ranges (the shape claim C5 calls an NEC repeat frame). -/
def fourPulseAgc : List Pulse :=
  [(("low" : String), 9000), (("high" : String), 4500),
   (("low" : String), 560), (("high" : String), 560)]

/-- A small non-NEC pulse train used to probe fingerprint determinism. -/
def fpSample : List Pulse :=
  [(("low" : String), 2000), (("high" : String), 600), (("low" : String), 600)]

/-- A placeholder stored event (used to build concrete stores). -/
def evDummy : Event :=
  { timestampUs := 0
    signalNumber := 0
    timingData := []
    totalDurationUs := 0
    pulseCount := 0
    analysis := Analysis.empty }

/-- A concrete state in which the listener is running. -/
def listeningState : ListenerState :=
  { irEvents := []
    isListening := true
    currentSignal := []
    lastTick := none
    lastLevel := none
    lastSignalTimeUs := 0
    signalCounter := 0
    recentSignals := []
    completionTimerActive := false
    piConnected := some true
    callbackActive := true }

theorem necBitsGo_encode (bs : List Nat) (rest : List Pulse)
    (hbs : ∀ b ∈ bs, b = 0 ∨ b = 1) :
    necBitsGo ((bs.flatMap fun b =>
        [(("low" : String), 560), (("high" : String), if b = 1 then 1690 else 560)])
      ++ rest) bs.length = bs := by
  induction bs with
  | nil => simp [necBitsGo]
  | cons b bs ih =>
    have hb := hbs b (List.mem_cons_self b bs)
    have hrest := fun x hx => hbs x (List.mem_cons_of_mem b hx)
    rcases hb with rfl | rfl
    · simp only [List.flatMap_cons, List.cons_append, List.length_cons, List.append_assoc]
      norm_num [necBitsGo]
      exact ih hrest
    · simp only [List.flatMap_cons, List.cons_append, List.length_cons, List.append_assoc]
      norm_num [necBitsGo]
      exact ih hrest

theorem traceToPulses_necTrace (duty : Nat) (code : Int) :
    traceToPulses (necTrace duty code)
      = (("low" : String), 9000) :: (("high" : String), 4500) ::
        ((necSentBits code).flatMap
          fun b => [(("low" : String), 560), (("high" : String), if b = 1 then 1690 else 560)])
        ++ [(("low" : String), 560)] := by
  simp only [necTrace, traceToPulses, necSentBits, List.flatMap_cons,
    List.flatMap_append, List.flatMap_assoc, List.flatMap_map, List.flatMap_nil,
    List.cons_append, List.nil_append, List.append_nil, Function.comp]
  congr 2
  have hfn : (fun a : Nat =>
      [(("low" : String), (560 : Nat)),
       (("high" : String), if (if pyBit code (31 - a) = 1 then (1 : Nat) else 0) = 1 then (1690 : Nat) else 560)])
      = (fun a : Nat =>
      [(("low" : String), (560 : Nat)),
       (("high" : String), if pyBit code (31 - a) = 1 then (1690 : Nat) else 560)]) := by
    funext a
    by_cases h : pyBit code (31 - a) = 1 <;> simp [h]
  rw [hfn]

theorem pairFlatMap_length (l : List Nat) :
    (l.flatMap fun b =>
      [(("low" : String), (560 : Nat)),
       (("high" : String), if b = 1 then (1690 : Nat) else 560)]).length
      = 2 * l.length := by
  induction l with
  | nil => simp
  | cons b bs ih => simp [ih]; omega

theorem necSentBits_length (code : Int) : (necSentBits code).length = 32 := by
  simp [necSentBits]

theorem necSentBits_mem (code : Int) : ∀ b ∈ necSentBits code, b = 0 ∨ b = 1 := by
  intro b hb
  simp [necSentBits] at hb
  obtain ⟨i, _, hi⟩ := hb
  split at hi <;> omega

theorem roundPulses_length (duty : Nat) (code : Int) :
    (traceToPulses (necTrace duty code)).length = 67 := by
  rw [traceToPulses_necTrace]
  simp only [List.length_cons, List.length_append, List.length_singleton,
    pairFlatMap_length, necSentBits_length]
  simp

theorem necDataBits_roundTrip (duty : Nat) (code : Int) :
    necDataBits (traceToPulses (necTrace duty code)) = necSentBits code := by
  unfold necDataBits
  rw [roundPulses_length, traceToPulses_necTrace]
  norm_num [List.drop]
  rw [show (32 : Nat) = (necSentBits code).length from (necSentBits_length code).symm]
  exact necBitsGo_encode (necSentBits code) _ (necSentBits_mem code)

theorem pyBit_ofNat (m k : Nat) : pyBit (Int.ofNat m) k = Int.ofNat (m / 2 ^ k % 2) := by
  unfold pyBit
  rw [show ((2 : Int) ^ k) = Int.ofNat (2 ^ k) from by exact_mod_cast rfl]
  cases m with
  | zero => simp [Int.zero_fdiv, Nat.zero_div]; rfl
  | succ n => rfl

theorem necSentBits_getD (code : Int) (i : Nat) (h : i < 32) :
    (necSentBits code).getD i 0 = if pyBit code (31 - i) = 1 then 1 else 0 := by
  simp [necSentBits, List.getD, List.getElem?_map, List.getElem?_range, h]

theorem necSentBits_getD_val (a c i : Nat) (h : i < 32) :
    (necSentBits (necRetransmitCode a c)).getD i 0
      = (a * 2 ^ 24 + c * 2 ^ 16) / 2 ^ (31 - i) % 2 := by
  rw [necSentBits_getD _ i h]
  unfold necRetransmitCode
  rw [pyBit_ofNat]
  rcases Nat.mod_two_eq_zero_or_one ((a * 2 ^ 24 + c * 2 ^ 16) / 2 ^ (31 - i)) with h1 | h1 <;>
    rw [h1] <;> simp

theorem ite_mod_two_add (x acc p : Nat) :
    (if x % 2 = 1 then acc + p else acc) = acc + x % 2 * p := by
  rcases Nat.mod_two_eq_zero_or_one x with h | h <;> simp [h]

theorem ite_mod_two_bit (x : Nat) :
    (if x % 2 = 1 then (1 : Nat) else 0) = x % 2 := by
  rcases Nat.mod_two_eq_zero_or_one x with h | h <;> simp [h]

theorem bitsToByte_roundTrip_addr (a c : Nat) (ha : a < 256) (hc : c < 256) :
    bitsToByte (necSentBits (necRetransmitCode a c)) 0 = rev8 a := by
  simp only [bitsToByte, rev8, lsbBit, List.range_succ, List.range_zero, List.nil_append,
    List.cons_append, List.foldl_cons, List.foldl_nil, Nat.zero_add]
  rw [necSentBits_getD_val a c 0 (by norm_num), necSentBits_getD_val a c 1 (by norm_num),
    necSentBits_getD_val a c 2 (by norm_num), necSentBits_getD_val a c 3 (by norm_num),
    necSentBits_getD_val a c 4 (by norm_num), necSentBits_getD_val a c 5 (by norm_num),
    necSentBits_getD_val a c 6 (by norm_num), necSentBits_getD_val a c 7 (by norm_num)]
  simp only [ite_mod_two_add, ite_mod_two_bit]
  norm_num
  have e0 : (a * 16777216 + c * 65536) / 2147483648 % 2 = a / 128 % 2 := by omega
  have e1 : (a * 16777216 + c * 65536) / 1073741824 % 2 = a / 64 % 2 := by omega
  have e2 : (a * 16777216 + c * 65536) / 536870912 % 2 = a / 32 % 2 := by omega
  have e3 : (a * 16777216 + c * 65536) / 268435456 % 2 = a / 16 % 2 := by omega
  have e4 : (a * 16777216 + c * 65536) / 134217728 % 2 = a / 8 % 2 := by omega
  have e5 : (a * 16777216 + c * 65536) / 67108864 % 2 = a / 4 % 2 := by omega
  have e6 : (a * 16777216 + c * 65536) / 33554432 % 2 = a / 2 % 2 := by omega
  have e7 : (a * 16777216 + c * 65536) / 16777216 % 2 = a % 2 := by omega
  rw [e0, e1, e2, e3, e4, e5, e6, e7]
  simp only [ite_mod_two_bit]

theorem bitsToByte_roundTrip_cmd (a c : Nat) (hc : c < 256) :
    bitsToByte (necSentBits (necRetransmitCode a c)) 8 = rev8 c := by
  simp only [bitsToByte, rev8, lsbBit, List.range_succ, List.range_zero, List.nil_append,
    List.cons_append, List.foldl_cons, List.foldl_nil, Nat.zero_add, Nat.add_zero]
  rw [necSentBits_getD_val a c 8 (by norm_num), necSentBits_getD_val a c 9 (by norm_num),
    necSentBits_getD_val a c 10 (by norm_num), necSentBits_getD_val a c 11 (by norm_num),
    necSentBits_getD_val a c 12 (by norm_num), necSentBits_getD_val a c 13 (by norm_num),
    necSentBits_getD_val a c 14 (by norm_num), necSentBits_getD_val a c 15 (by norm_num)]
  simp only [ite_mod_two_add, ite_mod_two_bit]
  norm_num
  have e0 : (a * 16777216 + c * 65536) / 8388608 % 2 = c / 128 % 2 := by omega
  have e1 : (a * 16777216 + c * 65536) / 4194304 % 2 = c / 64 % 2 := by omega
  have e2 : (a * 16777216 + c * 65536) / 2097152 % 2 = c / 32 % 2 := by omega
  have e3 : (a * 16777216 + c * 65536) / 1048576 % 2 = c / 16 % 2 := by omega
  have e4 : (a * 16777216 + c * 65536) / 524288 % 2 = c / 8 % 2 := by omega
  have e5 : (a * 16777216 + c * 65536) / 262144 % 2 = c / 4 % 2 := by omega
  have e6 : (a * 16777216 + c * 65536) / 131072 % 2 = c / 2 % 2 := by omega
  have e7 : (a * 16777216 + c * 65536) / 65536 % 2 = c % 2 := by omega
  rw [e0, e1, e2, e3, e4, e5, e6, e7]
  simp only [ite_mod_two_bit]

theorem decodeNec_roundTrip (a c : Nat) (ha : a < 256) (hc : c < 256) :
    decodeNec (traceToPulses (necTrace 200 (necRetransmitCode a c)))
      = some (Analysis.nec (rev8 a) (rev8 c)
          ("0x" ++ hexPad 2 (rev8 a) ++ hexPad 2 (rev8 c) ++ "0000") 32 true
          (traceToPulses (necTrace 200 (necRetransmitCode a c)))) := by
  simp only [decodeNec, necDataBits_roundTrip, roundPulses_length, necSentBits_length,
    bitsToByte_roundTrip_addr a c ha hc, bitsToByte_roundTrip_cmd a c hc]
  norm_num

theorem analyzeSignal_roundTrip (a c : Nat) (ha : a < 256) (hc : c < 256) :
    analyzeSignal (traceToPulses (necTrace 200 (necRetransmitCode a c))) 1 0
      = Analysis.nec (rev8 a) (rev8 c)
          ("0x" ++ hexPad 2 (rev8 a) ++ hexPad 2 (rev8 c) ++ "0000") 32 true
          (traceToPulses (necTrace 200 (necRetransmitCode a c))) := by
  have hdec := decodeNec_roundTrip a c ha hc
  have hlen := roundPulses_length 200 (necRetransmitCode a c)
  have hsh := traceToPulses_necTrace 200 (necRetransmitCode a c)
  rw [hsh] at hdec hlen ⊢
  simp only [List.cons_append] at hdec hlen ⊢
  have htot : ¬ totalDurationUs ((("low" : String), (9000 : Nat)) :: (("high" : String), (4500 : Nat)) ::
      (((necSentBits (necRetransmitCode a c)).flatMap fun b =>
        [(("low" : String), (560 : Nat)), (("high" : String), if b = 1 then (1690 : Nat) else 560)])
        ++ [(("low" : String), (560 : Nat))])) < 1000 := by
    simp [totalDurationUs]
    omega
  simp only [analyzeSignal, if_neg htot]
  rw [if_pos (by omega : 4 ≤ ((("low" : String), (9000 : Nat)) :: (("high" : String), (4500 : Nat)) ::
      (((necSentBits (necRetransmitCode a c)).flatMap fun b =>
        [(("low" : String), (560 : Nat)), (("high" : String), if b = 1 then (1690 : Nat) else 560)])
        ++ [(("low" : String), (560 : Nat))])).length)]
  simp [hdec]


/-- C2 (amended): for every NEC address byte and command byte, encoding
with the NEC transmit encoder and re-decoding the resulting pulse sequence
yields the bit-reversed address, the bit-reversed command, and
verified=true; the original pair is recovered only for bit-palindromic
bytes. -/
theorem c2_nec_round_trip_bit_reversed (a c : Nat) (ha : a < 256) (hc : c < 256) :
    necRoundTrip a c = some (rev8 a, rev8 c, true) := by
  unfold necRoundTrip
  rw [analyzeSignal_roundTrip a c ha hc]

/-- C2 counterexample: encoding `{address: 0, command: 1}` and re-decoding
yields command 128 (the bit-reversed byte), not 1, because the encoder
sends the code word MSB-first while the decoder reads bits LSB-first. -/
theorem c2_counterexample :
    necRoundTrip 0 1 = some (0, 128, true) ∧ (128 : Nat) ≠ 1 := by decide

theorem c2_nec_round_trip_bit_reversed_witness :
    ((0 : Nat) < 256 ∧ (1 : Nat) < 256) ∧ necRoundTrip 0 1 = some (rev8 0, rev8 1, true) :=
  ⟨by decide, c2_nec_round_trip_bit_reversed 0 1 (by decide) (by decide)⟩

/-- C1 counterexample: `transmit("unknown_protocol", "0xFF", raw_timing=None)`
succeeds (returns `True`), emits the substitute test burst instead of an
`UnsupportedProtocol` error, and the burst leaves the output pin at the
transmit duty cycle (carrier on), contradicting the claim. -/
theorem c1_counterexample :
    (sendIrProtocol 200 "unknown_protocol" "0xFF" none).1 = true ∧
    (sendIrProtocol 200 "unknown_protocol" "0xFF" none).2 = testBurstTrace 200 ∧
    lastDuty (sendIrProtocol 200 "unknown_protocol" "0xFF" none).2 = 200 ∧
    (irSend true true "unknown_protocol" "0xFF" none false).1 = true := by decide

/-- C1 (amended): for every transmit call whose lowercased protocol is none
of "nec"/"sony"/"generic", with no raw timing attached and a parseable hex
code, `_send_ir_protocol` returns success and transmits the fixed test
burst, whose final action is a mark at the transmit duty (carrier left on);
`ir_send` then reports overall success. -/
theorem c1_unsupported_protocol_test_burst (duty : Nat) (protocol hexCode : String) (code : Int)
    (hn : pyLower protocol ≠ "nec") (hs : pyLower protocol ≠ "sony")
    (hg : pyLower protocol ≠ "generic") (hc : pyIntHex hexCode = some code) :
    sendIrProtocol duty protocol hexCode none = (true, testBurstTrace duty) ∧
    lastDuty (testBurstTrace duty) = duty ∧
    (irSend true true protocol hexCode none false).1 = true := by
  have h200 : ∀ d : Nat, sendIrProtocol d protocol hexCode none = (true, testBurstTrace d) := by
    intro d
    simp [sendIrProtocol, rawTruthy, hc, hn, hs, hg]
  refine ⟨h200 duty, rfl, ?_⟩
  simp [irSend, h200 200]

/-- C3 counterexample: a standard NEC frame with bytes
`0xAA, 0x55, 0x0F, 0xF0` (valid complements) decodes to command `0x55` —
the second byte, which the claim says is `~address` — instead of the third
byte `0x0F`; the decoder reads only bits 0-15 and never checks the
complement bytes. -/
theorem c3_counterexample :
    analyzeSignal (necStandardPulses 170 15) 1 0
      = Analysis.nec 170 85 "0xAA550000" 32 true (necStandardPulses 170 15) ∧
    bitsToByte (necDataBits (necStandardPulses 170 15)) 8 = 85 ∧
    bitsToByte (necDataBits (necStandardPulses 170 15)) 16 = 15 ∧
    (85 : Nat) ≠ 15 := by decide

/-- C3 (amended): whenever `_decode_nec` succeeds, the result carries
verified=true unconditionally (no checksum is computed), with the address
taken from bits 0-7 and the command from bits 8-15 of the decoded bit
stream. -/
theorem c3_decode_nec_always_verified (td : List Pulse) (address command : Nat) (code : String)
    (bitsDecoded : Nat) (verified : Bool) (rawData : List Pulse)
    (h : decodeNec td = some (Analysis.nec address command code bitsDecoded verified rawData)) :
    verified = true ∧ address = bitsToByte (necDataBits td) 0 ∧
      command = bitsToByte (necDataBits td) 8 := by
  simp only [decodeNec] at h
  split at h
  · exact absurd h (by simp)
  · split at h
    · rw [Option.some.injEq, Analysis.nec.injEq] at h
      obtain ⟨h1, h2, h3, h4, h5, h6⟩ := h
      exact ⟨h5.symm, h1.symm, h2.symm⟩
    · exact absurd h (by simp)

theorem totalDurationUs_ge_min (td : List Pulse) (m : Nat) (h : ∀ p ∈ td, m ≤ p.2) :
    m * td.length ≤ totalDurationUs td := by
  induction td with
  | nil => simp [totalDurationUs]
  | cons p l ih =>
    have hp := h p (List.mem_cons_self p l)
    have hl := ih (fun q hq => h q (List.mem_cons_of_mem p hq))
    simp only [totalDurationUs, List.map_cons, List.sum_cons] at hl ⊢
    rw [List.length_cons, Nat.mul_succ]
    simpa [Nat.add_comm] using Nat.add_le_add hl hp

/-- C4 counterexample: a 25-pulse Sony SIRC waveform (2400 µs header, 12
zero bits in the claimed ranges) is classified Generic, not Sony — the
pipeline has no Sony decoder. -/
theorem c4_counterexample :
    sonySircPulses.length = 25 ∧
    sonySircPulses.head? = some ((("low" : String), 2400)) ∧
    (analyzeSignal sonySircPulses 1 0).isGeneric = true := by decide

/-- C4 (amended): the decoder pipeline is NEC then Generic only; every
pulse sequence of at least 24 pulses whose first pulse is a "low" of
2000-2800 µs (hence failing the NEC AGC check) with all pulses at least
400 µs is classified Generic. -/
theorem c4_sony_shape_classified_generic (td : List Pulse) (d n t : Nat)
    (hlen : 24 ≤ td.length) (hhead : td.head? = some (("low" : String), d))
    (hd1 : 2000 ≤ d) (hd2 : d ≤ 2800) (hmin : ∀ p ∈ td, 400 ≤ p.2) :
    (analyzeSignal td n t).isGeneric = true := by
  cases td with
  | nil => simp at hlen
  | cons first rest =>
    rw [List.head?_cons, Option.some.injEq] at hhead
    subst hhead
    have htot : ¬ totalDurationUs ((("low" : String), d) :: rest) < 1000 := by
      have hge := totalDurationUs_ge_min ((("low" : String), d) :: rest) 400 hmin
      simp only [List.length_cons] at hge hlen
      omega
    have h7 : ¬ 7000 ≤ d := by omega
    simp [analyzeSignal, htot, h7, genericAnalysis, Analysis.isGeneric]

/-- C5 counterexample: the 4-pulse frame with a valid NEC AGC header is
classified Generic; `_decode_nec` rejects any sequence under 34 pulses and
the code has no REPEAT classification at all. -/
theorem c5_counterexample :
    decodeNec fourPulseAgc = none ∧
    (analyzeSignal fourPulseAgc 1 0).isGeneric = true := by decide

/-- C5 (amended): every 4-pulse sequence whose first two pulses satisfy
the NEC AGC header ranges is classified Generic (never REPEAT): the NEC
decoder requires at least 34 pulses and there is no repeat-frame
handling. -/
theorem c5_four_pulse_agc_classified_generic (d1 d2 : Nat) (p3 p4 : Pulse) (n t : Nat)
    (h1 : 7000 ≤ d1) (h2 : d1 ≤ 12000) (h3 : 3000 ≤ d2) (h4 : d2 ≤ 6000) :
    (analyzeSignal [(("low" : String), d1), (("high" : String), d2), p3, p4] n t).isGeneric
      = true := by
  have htot : ¬ totalDurationUs [(("low" : String), d1), (("high" : String), d2), p3, p4] < 1000 := by
    simp [totalDurationUs]
    omega
  have hdec : decodeNec [(("low" : String), d1), (("high" : String), d2), p3, p4] = none := by
    simp [decodeNec]
  simp [analyzeSignal, htot, hdec, h1, h2, h3, h4, genericAnalysis, Analysis.isGeneric]

theorem insertEvent_no_evict (maxEvents : Nat) (events : List Event) (e : Event)
    (h : events.length + 1 ≤ maxEvents) :
    insertEvent maxEvents events e = events ++ [e] := by
  unfold insertEvent
  rw [if_neg]
  simp only [List.length_append, List.length_singleton]
  omega

theorem foldl_insertEvent_no_evict (maxEvents : Nat) (l acc : List Event)
    (h : acc.length + l.length ≤ maxEvents) :
    l.foldl (insertEvent maxEvents) acc = acc ++ l := by
  induction l generalizing acc with
  | nil => simp
  | cons x xs ih =>
    rw [List.foldl_cons, insertEvent_no_evict maxEvents acc x (by simp at h; omega),
      ih (acc ++ [x]) (by simp at h ⊢; omega)]
    simp

/-- C6: starting from an empty store, inserting `maxEvents + 1` events
through the normal insertion path leaves exactly
`maxEvents - maxEvents / 10 + 1` events, and the survivors are precisely
the most recently inserted ones (the oldest `maxEvents / 10` are dropped
in one batch). -/
theorem c6_eviction_arithmetic (maxEvents : Nat) (l : List Event) (h : l.length = maxEvents + 1) :
    l.foldl (insertEvent maxEvents) [] = l.drop (maxEvents / 10) ∧
    (l.foldl (insertEvent maxEvents) []).length = maxEvents - maxEvents / 10 + 1 := by
  have hd1 : (l.drop maxEvents).length = 1 := by
    rw [List.length_drop]
    omega
  obtain ⟨x, hx⟩ := List.length_eq_one.mp hd1
  have hl : l = l.take maxEvents ++ [x] := by
    rw [← hx, List.take_append_drop]
  have htake : (l.take maxEvents).length = maxEvents := by
    rw [List.length_take]
    omega
  have hmain : l.foldl (insertEvent maxEvents) [] = l.drop (maxEvents / 10) := by
    conv in l.foldl _ _ => rw [hl]
    rw [List.foldl_append,
      foldl_insertEvent_no_evict maxEvents (l.take maxEvents) [] (by simp [htake]),
      List.nil_append, List.foldl_cons, List.foldl_nil]
    unfold insertEvent
    rw [if_pos (by simp [htake]), ← hl]
  refine ⟨hmain, ?_⟩
  rw [hmain, List.length_drop, h]
  have := Nat.div_le_self maxEvents 10
  omega

theorem c6_eviction_arithmetic_witness :
    (List.replicate 11 evDummy).length = 10 + 1 ∧
    ((List.replicate 11 evDummy).foldl (insertEvent 10) []
        = (List.replicate 11 evDummy).drop (10 / 10) ∧
      ((List.replicate 11 evDummy).foldl (insertEvent 10) []).length = 10 - 10 / 10 + 1) :=
  ⟨by decide, c6_eviction_arithmetic 10 (List.replicate 11 evDummy) (by decide)⟩

/-- C7 counterexample: one recovery-path insertion
(`_finish_current_signal`'s except branch, which appends with no bounds
check) at a store already holding `MAX_EVENTS` events pushes the store
above the configured maximum. -/
theorem c7_counterexample :
    MAX_EVENTS < (insertEventRaw (List.replicate MAX_EVENTS evDummy) evDummy).length := by
  unfold insertEventRaw
  rw [List.length_append, List.length_replicate]
  norm_num

theorem insertEvent_length_le (maxEvents : Nat) (events : List Event) (e : Event)
    (h10 : 1 ≤ maxEvents / 10) (h : events.length ≤ maxEvents) :
    (insertEvent maxEvents events e).length ≤ maxEvents := by
  simp only [insertEvent]
  split
  · simp only [List.length_drop, List.length_append, List.length_singleton]
    omega
  · rename_i h2
    simp only [List.length_append, List.length_singleton] at h2 ⊢
    omega

/-- C7 (amended): every normal-path signal completion keeps the Signal
Store at or below the configured maximum of 1000 events (eviction drops
the oldest 10 percent in one batch); only the decode-failure recovery
path, which performs no eviction, can exceed it. -/
theorem c7_normal_path_store_bound (st : ListenerState) (timeUs : Nat)
    (h : st.irEvents.length ≤ MAX_EVENTS) :
    (finishCurrentSignal st timeUs).irEvents.length ≤ MAX_EVENTS := by
  unfold finishCurrentSignal
  cases hcs : st.currentSignal with
  | nil => simpa using h
  | cons f r =>
    simp only []
    exact insertEvent_length_le MAX_EVENTS st.irEvents _ (by norm_num [MAX_EVENTS]) h

theorem c7_normal_path_store_bound_witness :
    listeningState.irEvents.length ≤ MAX_EVENTS ∧
    (finishCurrentSignal listeningState 0).irEvents.length ≤ MAX_EVENTS :=
  ⟨by decide, c7_normal_path_store_bound listeningState 0 (by decide)⟩

theorem decodeNec_not_generic (td : List Pulse) (a : Analysis)
    (h : decodeNec td = some a) : a.isGeneric = false := by
  simp only [decodeNec] at h
  split at h
  · exact absurd h (by simp)
  · split at h
    · rw [Option.some.injEq] at h
      rw [← h]
      rfl
    · exact absurd h (by simp)

theorem opt_nec_aux (td : List Pulse) (P Q : Prop) [Decidable P] [Decidable Q]
    (a : Analysis)
    (h : (if P then (if Q then decodeNec td else none) else none) = some a) :
    a.isGeneric = false := by
  split at h
  · split at h
    · exact decodeNec_not_generic td a h
    · exact absurd h (by simp)
  · exact absurd h (by simp)

theorem analyzeSignal_generic_eq (td : List Pulse) (n t : Nat)
    (h : (analyzeSignal td n t).isGeneric = true) :
    analyzeSignal td n t = genericAnalysis td n t := by
  cases td with
  | nil => simp [analyzeSignal, Analysis.isGeneric] at h
  | cons first rest =>
    simp only [analyzeSignal] at h ⊢
    by_cases h1 : totalDurationUs (first :: rest) < 1000
    · rw [if_pos h1] at h
      exact absurd h (by simp [Analysis.isGeneric])
    · rw [if_neg h1] at h ⊢
      split
      · rename_i r heq
        have hfalse := opt_nec_aux (first :: rest) _ _ r heq
        rw [heq] at h
        simp only [] at h
        rw [hfalse] at h
        exact absurd h (by simp)
      · rfl

/-- C8 counterexample: analyzing the same pulse sequence with a different
signal number (1 vs 2) or a different capture time (0 vs 7 µs) produces
different fingerprints and different codes, so the fingerprint is not a
function of the pulse sequence alone. -/
theorem c8_counterexample :
    (analyzeSignal fpSample 1 0).fingerprintOf ≠ (analyzeSignal fpSample 2 0).fingerprintOf ∧
    (analyzeSignal fpSample 1 0).fingerprintOf ≠ (analyzeSignal fpSample 1 7).fingerprintOf ∧
    (analyzeSignal fpSample 1 0).codeOf ≠ (analyzeSignal fpSample 2 0).codeOf := by decide

/-- C8 (amended): a Generic analysis result has fingerprint
`stem(pulses) ++ "#" ++ signal_number ++ "@" ++ time_hash` — the
T/S/L/D hash stem depends only on the pulse sequence, but the full
fingerprint and the code additionally fold in the signal number and the
capture-time hash. -/
theorem c8_fingerprint_decomposition (td : List Pulse) (n t : Nat)
    (h : (analyzeSignal td n t).isGeneric = true) :
    (analyzeSignal td n t).fingerprintOf
      = some (fingerprintStem td ++ "#" ++ Nat.repr n ++ "@" ++ hexPad 4 (t % 65536)) ∧
    (analyzeSignal td n t).codeOf = some ("0x" ++ hexPad 8 (genericCodeHash td n t)) := by
  rw [analyzeSignal_generic_eq td n t h]
  exact ⟨rfl, rfl⟩

theorem c8_fingerprint_decomposition_witness :
    (analyzeSignal fpSample 1 0).isGeneric = true ∧
    (analyzeSignal fpSample 1 0).fingerprintOf
      = some (fingerprintStem fpSample ++ "#" ++ Nat.repr 1 ++ "@" ++ hexPad 4 (0 % 65536)) :=
  ⟨by decide, (c8_fingerprint_decomposition fpSample 1 0 (by decide)).1⟩

/-- C9: for every non-empty pulse sequence shorter than the NEC and Sony
minimum lengths (under 24 pulses), analysis terminates in a Generic or
Noise classification; and every non-empty sequence with total duration
under 1000 µs is classified Noise (a normal result, not an error). -/
theorem c9_decoder_totality (td : List Pulse) (n t : Nat) (hne : td ≠ []) :
    (td.length < 24 →
      (analyzeSignal td n t).isGeneric = true ∨ analyzeSignal td n t = Analysis.noise) ∧
    (totalDurationUs td < 1000 → analyzeSignal td n t = Analysis.noise) := by
  cases td with
  | nil => exact absurd rfl hne
  | cons first rest =>
    constructor
    · intro hlen
      by_cases htot : totalDurationUs (first :: rest) < 1000
      · right
        simp [analyzeSignal, htot]
      · left
        have hdec : decodeNec (first :: rest) = none := by
          unfold decodeNec
          rw [if_pos]
          rw [List.length_cons] at hlen ⊢
          omega
        simp [analyzeSignal, htot, hdec, genericAnalysis, Analysis.isGeneric]
    · intro htot
      simp [analyzeSignal, htot]

theorem c9_decoder_totality_witness :
    analyzeSignal [(("low" : String), 500)] 1 0 = Analysis.noise :=
  (c9_decoder_totality [(("low" : String), 500)] 1 0 (by decide)).2 (by decide)

/-- C10: from any state, stopping capture twice succeeds both times, the
second stop changes no state, and the status afterwards reports
listening=false; starting capture while already listening (with pigpio
available) succeeds and changes nothing. -/
theorem c10_capture_idempotence (st : ListenerState) (connected : Bool) :
    (stopListening st).1.1 = true ∧
    (stopListening (stopListening st).2).1.1 = true ∧
    (stopListening (stopListening st).2).2 = (stopListening st).2 ∧
    (getListenerStatus (stopListening st).2).isListening = false ∧
    (st.isListening = true →
      startListening true connected st = ((true, "IR listener is already running."), st)) := by
  cases hb : st.isListening with
  | false => simp [stopListening, startListening, getListenerStatus, hb]
  | true => simp [stopListening, startListening, getListenerStatus, hb]

theorem c10_capture_idempotence_witness :
    listeningState.isListening = true ∧
    startListening true true listeningState
      = ((true, "IR listener is already running."), listeningState) :=
  ⟨rfl, (c10_capture_idempotence listeningState true).2.2.2.2 rfl⟩

/-- C1 witness: the amended theorem applied at the concrete call of the
spec scenario. -/
theorem c1_unsupported_protocol_test_burst_witness :
    (pyLower "unknown_protocol" ≠ "nec" ∧ pyLower "unknown_protocol" ≠ "sony" ∧
      pyLower "unknown_protocol" ≠ "generic" ∧ pyIntHex "0xFF" = some 255) ∧
    sendIrProtocol 200 "unknown_protocol" "0xFF" none = (true, testBurstTrace 200) :=
  ⟨⟨by decide, by decide, by decide, by decide⟩,
    (c1_unsupported_protocol_test_burst 200 "unknown_protocol" "0xFF" 255
      (by decide) (by decide) (by decide) (by decide)).1⟩

/-- C3 witness: the amended theorem applied to a concrete decodable NEC
frame. -/
theorem c3_decode_nec_always_verified_witness :
    decodeNec (necStandardPulses 170 15)
      = some (Analysis.nec 170 85 "0xAA550000" 32 true (necStandardPulses 170 15)) ∧
    (true = true ∧ (170 : Nat) = bitsToByte (necDataBits (necStandardPulses 170 15)) 0 ∧
      (85 : Nat) = bitsToByte (necDataBits (necStandardPulses 170 15)) 8) :=
  ⟨by decide,
    c3_decode_nec_always_verified (necStandardPulses 170 15) 170 85 "0xAA550000" 32 true
      (necStandardPulses 170 15) (by decide)⟩

/-- C4 witness: the amended theorem applied to the concrete Sony SIRC
waveform. -/
theorem c4_sony_shape_classified_generic_witness :
    (24 ≤ sonySircPulses.length ∧ sonySircPulses.head? = some (("low" : String), 2400) ∧
      (2000 : Nat) ≤ 2400 ∧ (2400 : Nat) ≤ 2800 ∧ ∀ p ∈ sonySircPulses, 400 ≤ p.2) ∧
    (analyzeSignal sonySircPulses 1 0).isGeneric = true :=
  ⟨⟨by decide, by decide, by decide, by decide, by decide⟩,
    c4_sony_shape_classified_generic sonySircPulses 2400 1 0
      (by decide) (by decide) (by decide) (by decide) (by decide)⟩

/-- C5 witness: the amended theorem applied to the concrete 4-pulse AGC
frame. -/
theorem c5_four_pulse_agc_classified_generic_witness :
    ((7000 : Nat) ≤ 9000 ∧ (9000 : Nat) ≤ 12000 ∧ (3000 : Nat) ≤ 4500 ∧ (4500 : Nat) ≤ 6000) ∧
    (analyzeSignal [(("low" : String), 9000), (("high" : String), 4500),
        (("low" : String), 560), (("high" : String), 560)] 1 0).isGeneric = true :=
  ⟨by decide,
    c5_four_pulse_agc_classified_generic 9000 4500 (("low" : String), 560)
      (("high" : String), 560) 1 0 (by decide) (by decide) (by decide) (by decide)⟩
